import Mathlib

/-!
Shallow embedding of the two-phase RWKV TTS decoder of rwkv-tts-rs
(src/normal_mode_inference.rs, src/zero_shot_inference.rs) and of the
reference-clip / speech-generation helpers of
src/lightweight_tts_pipeline.rs, together with theorems settling the
frozen claims about the natural-language specification.

The LM runtime and the categorical sampler (crate rwkv_sampler,
function sample_logits_impl) are external to the provided sources; the
id sampled at decode step i is abstracted as an oracle
sample : Nat -> Nat.  All loop structure, range guards, clamping,
masking and arithmetic below are translated directly from the Rust
sources named in each doc comment.
-/

/-- Modelled from the spec: the constant TTS_EOS_TOKEN is declared in
rwkv_sampler.rs, which is not among the provided sources; the spec
fixes the semantic codebook as [0, 8192] with 8192 the EOS sentinel. -/
def TTS_EOS_TOKEN : ℕ := 8192

/-- Global phase of normal mode, normal_mode_inference.rs lines 156-212:
for i in 0..32, sample an id; skip it (continue) when it exceeds
i32::MAX or is not below 4096; otherwise append it and feed it back.
The sampled id at step i is the oracle value sample i. -/
def global_phase (sample : ℕ → ℕ) : List ℕ :=
  (List.range 32).filterMap fun i =>
    if 2147483647 < sample i then none
    else if 4096 ≤ sample i then none
    else some (sample i)

/-- Semantic generation loop shared verbatim by
normal_mode_inference.rs lines 233-302 and zero_shot_inference.rs
lines 161-220: at step i, when the sampled id equals TTS_EOS_TOKEN the
loop breaks without appending; when it exceeds TTS_EOS_TOKEN the step
is skipped (continue); otherwise the id is appended and fed back.
The first argument of the recursion is the step index, the second the
number of remaining steps. -/
def semantic_loop (sample : ℕ → ℕ) : ℕ → ℕ → List ℕ
  | _, 0 => []
  | i, fuel + 1 =>
    if sample i = TTS_EOS_TOKEN then []
    else if TTS_EOS_TOKEN < sample i then semantic_loop sample (i + 1) fuel
    else sample i :: semantic_loop sample (i + 1) fuel

/-- Semantic tokens of normal mode, normal_mode_inference.rs lines
230-233: the step budget is min(request.args.max_tokens, 2048). -/
def semantic_tokens_normal (sample : ℕ → ℕ) (max_tokens : ℕ) : List ℕ :=
  semantic_loop sample 0 (Nat.min max_tokens 2048)

/-- Semantic tokens of zero-shot mode, zero_shot_inference.rs line 125:
the step budget is min(2048, 2048); the request max_tokens is unused. -/
def semantic_tokens_zero_shot (sample : ℕ → ℕ) : List ℕ :=
  semantic_loop sample 0 (Nat.min 2048 2048)

/-- Rust i32::clamp(lo, hi) on mathematical integers. -/
def clamp_i32 (t lo hi : ℤ) : ℤ := min (max t lo) hi

/-- Corrected global reference tokens, zero_shot_inference.rs line 47:
each reference global token clamped to [0, 4095]. -/
def corrected_global (ref_global : List ℤ) : List ℤ :=
  ref_global.map fun t => clamp_i32 t 0 4095

/-- Corrected semantic reference tokens, zero_shot_inference.rs line 48:
each reference semantic token clamped to [0, 8192]. -/
def corrected_semantic (ref_semantic : List ℤ) : List ℤ :=
  ref_semantic.map fun t => clamp_i32 t 0 8192

/-- Prefill sequence of zero-shot mode, zero_shot_inference.rs lines
57-69: property tokens, TTS_TAG_2, text tokens, TTS_TAG_0, the
corrected global tokens each shifted by GLOBAL_TOKEN_OFFSET, TTS_TAG_1,
then the corrected semantic tokens.  The tag and offset constants live
in rwkv_sampler.rs, outside the provided sources, and are passed as
parameters. -/
def input_tokens_zero_shot (tag0 tag1 tag2 offset : ℤ)
    (property_tokens text_tokens ref_global ref_semantic : List ℤ) : List ℤ :=
  property_tokens ++ [tag2] ++ text_tokens ++ [tag0]
    ++ (corrected_global ref_global).map (fun t => t + offset)
    ++ [tag1] ++ corrected_semantic ref_semantic

/-- Tokens pushed into the batch after prefill in zero-shot mode,
zero_shot_inference.rs lines 104-112: each corrected global token
unshifted, followed by TTS_TAG_1. -/
def post_prefill_feed (tag1 : ℤ) (ref_global : List ℤ) : List ℤ :=
  corrected_global ref_global ++ [tag1]

/-- Result of execute_zero_shot_inference, zero_shot_inference.rs lines
98-100 and 222: the returned global tokens are exactly the corrected
reference global tokens (no sampling), the semantic tokens come from
the semantic loop. -/
def execute_zero_shot (sample : ℕ → ℕ) (ref_global : List ℤ) : List ℤ × List ℕ :=
  (corrected_global ref_global, semantic_tokens_zero_shot sample)

/-- First pass of the semantic mask, normal_mode_inference.rs lines
249-253 and zero_shot_inference.rs lines 177-181: every entry whose
index exceeds TTS_EOS_TOKEN is overwritten by negative infinity
(abstracted as the value neg_inf).  The first argument of the
recursion is the index of the head. -/
def mask_above_eos {α : Type} (neg_inf : α) : ℕ → List α → List α
  | _, [] => []
  | j, v :: rest =>
    (if TTS_EOS_TOKEN < j then neg_inf else v) :: mask_above_eos neg_inf (j + 1) rest

/-- Masked semantic logits, normal_mode_inference.rs lines 246-264 and
zero_shot_inference.rs lines 174-192: after the first pass, each of the
three tag indices is overwritten by negative infinity when it is within
bounds (List.set is the identity out of bounds, matching the idx < len
guard in the source). -/
def logits_masked {α : Type} (neg_inf : α) (tag0 tag1 tag2 : ℕ)
    (logits : List α) : List α :=
  (((mask_above_eos neg_inf 0 logits).set tag0 neg_inf).set tag1 neg_inf).set
    tag2 neg_inf

/-- Top-k default substitution, normal_mode_inference.rs lines 80-84:
a requested top_k of 0 becomes 20 for the global phase. -/
def effective_top_k (top_k : ℕ) : ℕ := if top_k = 0 then 20 else top_k

/-- Conservative factor, normal_mode_inference.rs lines 138-140:
voice_fidelity times (1 - global_randomness).  The f32 arithmetic of
the source is embedded as exact rational arithmetic. -/
def global_conservative_factor (voice_fidelity global_randomness : ℚ) : ℚ :=
  voice_fidelity * (1 - global_randomness)

/-- Effective global-phase top_k, normal_mode_inference.rs lines
147-149: the f32 product top_k * (0.9 + 0.1 * c) is clamped below by
5.0 and then cast with as usize, which truncates toward zero. -/
def args_global_top_k (top_k : ℕ) (c : ℚ) : ℕ :=
  (⌊max 5 ((effective_top_k top_k : ℚ) * (9/10 + 1/10 * c))⌋).toNat

/-- Effective global-phase top_k as the claim words it: the scaled
value is rounded to the nearest integer before the max with 5. -/
def args_global_top_k_claim (top_k : ℕ) (c : ℚ) : ℕ :=
  max 5 (round ((effective_top_k top_k : ℚ) * (9/10 + 1/10 * c))).toNat

/-- Reference segment length, lightweight_tts_pipeline.rs lines
896-902: (6.0 * 16000) cast to u32, divided by 320, times 320. -/
def ref_segment_length : ℕ := 6 * 16000 / 320 * 320

/-- Reference clip extraction, lightweight_tts_pipeline.rs lines
894-919.  When the input is shorter than ref_segment_length the source
computes ref_segment_length / wav_length, a division that panics on a
0-length input; the panic is embedded as none.  Otherwise the input is
repeated ref_segment_length / wav_length + 1 times, and the
concatenation (respectively the input itself) is cut to
ref_segment_length samples. -/
def get_ref_clip {α : Type} (wav : List α) : Option (List α) :=
  if wav.length < ref_segment_length then
    if wav.length = 0 then none
    else
      some (((List.replicate (ref_segment_length / wav.length + 1) wav).flatten).take
        ref_segment_length)
  else some (wav.take ref_segment_length)

/-- Decode step of generate_speech, lightweight_tts_pipeline.rs lines
688-696: when both token vectors are empty the vocoder is not invoked
and one second of silence (16000 zero samples) is returned as a
success; otherwise the result is whatever decode_audio returns.  The
fallible vocoder call is abstracted as the function decode_audio. -/
def generate_speech_decode (decode_audio : List ℤ → List ℤ → Option (List ℚ))
    (global_tokens semantic_tokens : List ℤ) : Option (List ℚ) :=
  if global_tokens.isEmpty && semantic_tokens.isEmpty then
    some (List.replicate 16000 (0 : ℚ))
  else decode_audio global_tokens semantic_tokens

lemma global_phase_accept (sample : ℕ → ℕ)
    (h : ∀ i, i < 32 → sample i < 4096) :
    global_phase sample = (List.range 32).map sample := by
  unfold global_phase
  have : ∀ l : List ℕ, (∀ i ∈ l, sample i < 4096) →
      (l.filterMap fun i =>
        if 2147483647 < sample i then none
        else if 4096 ≤ sample i then none
        else some (sample i)) = l.map sample := by
    intro l hl
    induction l with
    | nil => simp
    | cons a t ih =>
      have ha : sample a < 4096 := hl a (by simp)
      rw [List.filterMap_cons, List.map_cons]
      rw [if_neg (by omega), if_neg (by omega)]
      rw [ih fun i hi => hl i (List.mem_cons_of_mem a hi)]
  exact this (List.range 32) fun i hi => h i (List.mem_range.mp hi)

lemma global_phase_mem_lt (sample : ℕ → ℕ) :
    ∀ t ∈ global_phase sample, t < 4096 := by
  intro t ht
  unfold global_phase at ht
  obtain ⟨i, -, hf⟩ := List.mem_filterMap.mp ht
  by_cases h1 : 2147483647 < sample i
  · rw [if_pos h1] at hf; exact absurd hf (by simp)
  · rw [if_neg h1] at hf
    by_cases h2 : 4096 ≤ sample i
    · rw [if_pos h2] at hf; exact absurd hf (by simp)
    · rw [if_neg h2] at hf
      obtain rfl := Option.some_injective _ hf
      omega

/-- C1 (counterexample): in normal mode a sample rejected by the range
guard is skipped by continue, without retry, so with the sampler
producing 4096 at step 0 and 0 afterwards the global phase returns only
31 tokens, not 32. -/
theorem c1_counterexample :
    (global_phase fun i => if i = 0 then 4096 else 0).length = 31 := by
  decide

/-- C1 (amended): in normal mode the global phase returns exactly 32
tokens, every one of them accepted in [0, 4096), provided every sampled
id is below 4096; a rejected sample is skipped without retry and
reduces the final count. -/
theorem c1_theorem (sample : ℕ → ℕ)
    (h : ∀ i, i < 32 → sample i < 4096) :
    (global_phase sample).length = 32 ∧
      (global_phase sample).all (fun t => decide (t < 4096)) = true := by
  constructor
  · rw [global_phase_accept sample h]; simp
  · rw [List.all_eq_true]
    intro t ht
    exact decide_eq_true (global_phase_mem_lt sample t ht)

/-- C1 (witness): the amended theorem at the constant-0 sampler. -/
theorem c1_witness :
    (global_phase fun _ => 0).length = 32 ∧
      (global_phase fun _ => 0).all (fun t => decide (t < 4096)) = true :=
  c1_theorem (fun _ => 0) (by intro i hi; simp)

lemma semantic_loop_length_le (sample : ℕ → ℕ) :
    ∀ fuel i, (semantic_loop sample i fuel).length ≤ fuel := by
  intro fuel
  induction fuel with
  | zero => intro i; simp [semantic_loop]
  | succ n ih =>
    intro i
    rw [semantic_loop]
    split
    · simp
    · split
      · exact le_trans (ih (i + 1)) (Nat.le_succ n)
      · simpa using ih (i + 1)

lemma semantic_loop_const_zero :
    ∀ fuel i, semantic_loop (fun _ => 0) i fuel = List.replicate fuel 0 := by
  intro fuel
  induction fuel with
  | zero => intro i; simp [semantic_loop]
  | succ n ih =>
    intro i
    rw [semantic_loop, List.replicate_succ]
    rw [if_neg (by simp [TTS_EOS_TOKEN]), if_neg (by simp [TTS_EOS_TOKEN])]
    rw [ih (i + 1)]

/-- C2 (counterexample): in zero-shot mode the semantic budget is the
constant min(2048, 2048); with a request max_tokens of 0 and a sampler
that always returns 0 (never EOS) the loop emits 2048 tokens, strictly
more than min(max_tokens, 2048) = 0. -/
theorem c2_counterexample :
    Nat.min 0 2048 < (semantic_tokens_zero_shot fun _ => 0).length := by
  unfold semantic_tokens_zero_shot
  rw [semantic_loop_const_zero, List.length_replicate]
  decide

/-- C2 (amended): the semantic phase of normal mode emits at most
min(max_tokens, 2048) tokens, but the semantic phase of zero-shot mode
emits at most 2048 tokens regardless of the request max_tokens. -/
theorem c2_theorem (sample : ℕ → ℕ) (max_tokens : ℕ) :
    (semantic_tokens_normal sample max_tokens).length ≤ Nat.min max_tokens 2048 ∧
      (semantic_tokens_zero_shot sample).length ≤ 2048 := by
  constructor
  · exact semantic_loop_length_le sample _ 0
  · simpa using semantic_loop_length_le sample (Nat.min 2048 2048) 0

/-- C3: in zero-shot mode the returned global token vector is exactly
the element-wise clamp of the reference global tokens to [0, 4095]; it
does not depend on the sampler, because the global phase replays the
reference instead of sampling. -/
theorem c3_theorem (sample : ℕ → ℕ) (ref_global : List ℤ) :
    (execute_zero_shot sample ref_global).1 =
      ref_global.map fun t => max 0 (min t 4095) := by
  unfold execute_zero_shot corrected_global clamp_i32
  refine List.map_congr_left fun t _ => ?_
  omega

lemma semantic_loop_mem_lt (sample : ℕ → ℕ) :
    ∀ fuel i t, t ∈ semantic_loop sample i fuel → t < 8192 := by
  intro fuel
  induction fuel with
  | zero => intro i t ht; simp [semantic_loop] at ht
  | succ n ih =>
    intro i t ht
    rw [semantic_loop] at ht
    by_cases h1 : sample i = TTS_EOS_TOKEN
    · rw [if_pos h1] at ht; simp at ht
    · rw [if_neg h1] at ht
      by_cases h2 : TTS_EOS_TOKEN < sample i
      · rw [if_pos h2] at ht; exact ih (i + 1) t ht
      · rw [if_neg h2] at ht
        rcases List.mem_cons.mp ht with rfl | hmem
        · unfold TTS_EOS_TOKEN at h1 h2; omega
        · exact ih (i + 1) t hmem

/-- C4: in both modes every returned semantic token lies in [0, 8192),
and in particular the EOS value 8192 never occurs in the output: a
sampled 8192 breaks the loop without being appended and a sampled value
above 8192 is skipped without being appended. -/
theorem c4_theorem (sample : ℕ → ℕ) (max_tokens : ℕ) :
    (semantic_tokens_normal sample max_tokens).all
        (fun t => decide (t < 8192)) = true ∧
      (semantic_tokens_zero_shot sample).all
        (fun t => decide (t < 8192)) = true ∧
      decide (TTS_EOS_TOKEN ∈ semantic_tokens_normal sample max_tokens) = false ∧
      decide (TTS_EOS_TOKEN ∈ semantic_tokens_zero_shot sample) = false := by
  have hn : ∀ t ∈ semantic_tokens_normal sample max_tokens, t < 8192 :=
    fun t ht => semantic_loop_mem_lt sample _ 0 t ht
  have hz : ∀ t ∈ semantic_tokens_zero_shot sample, t < 8192 :=
    fun t ht => semantic_loop_mem_lt sample _ 0 t ht
  refine ⟨?_, ?_, ?_, ?_⟩
  · exact List.all_eq_true.mpr fun t ht => decide_eq_true (hn t ht)
  · exact List.all_eq_true.mpr fun t ht => decide_eq_true (hz t ht)
  · exact decide_eq_false fun hmem => absurd (hn _ hmem) (by simp [TTS_EOS_TOKEN])
  · exact decide_eq_false fun hmem => absurd (hz _ hmem) (by simp [TTS_EOS_TOKEN])

/-- C5: the zero-shot prefill sequence is exactly the property tokens,
TTS_TAG_2, the text tokens, TTS_TAG_0, the clamped reference global
tokens each raised by GLOBAL_TOKEN_OFFSET, TTS_TAG_1, and the clamped
reference semantic tokens; after prefill the clamped global tokens are
pushed unshifted, followed by TTS_TAG_1.  The tag and offset constants
are universally quantified. -/
theorem c5_theorem (tag0 tag1 tag2 offset : ℤ)
    (property_tokens text_tokens ref_global ref_semantic : List ℤ) :
    input_tokens_zero_shot tag0 tag1 tag2 offset
        property_tokens text_tokens ref_global ref_semantic =
      property_tokens ++ [tag2] ++ text_tokens ++ [tag0]
        ++ ref_global.map (fun t => max 0 (min t 4095) + offset)
        ++ [tag1] ++ ref_semantic.map (fun t => max 0 (min t 8192)) ∧
      post_prefill_feed tag1 ref_global =
        ref_global.map (fun t => max 0 (min t 4095)) ++ [tag1] := by
  have hg : corrected_global ref_global =
      ref_global.map fun t => max 0 (min t 4095) := by
    unfold corrected_global clamp_i32
    exact List.map_congr_left fun t _ => by omega
  have hs : corrected_semantic ref_semantic =
      ref_semantic.map fun t => max 0 (min t 8192) := by
    unfold corrected_semantic clamp_i32
    exact List.map_congr_left fun t _ => by omega
  constructor
  · unfold input_tokens_zero_shot
    rw [hg, hs, List.map_map]
    rfl
  · unfold post_prefill_feed
    rw [hg]

lemma mask_above_eos_getElem {α : Type} (neg_inf : α) :
    ∀ (l : List α) (j0 k : ℕ),
      (mask_above_eos neg_inf j0 l)[k]? =
        (l[k]?).map fun v => if TTS_EOS_TOKEN < j0 + k then neg_inf else v := by
  intro l
  induction l with
  | nil => intro j0 k; simp [mask_above_eos]
  | cons a t ih =>
    intro j0 k
    cases k with
    | zero =>
      rw [mask_above_eos]
      simp
    | succ k =>
      rw [mask_above_eos]
      rw [List.getElem?_cons_succ, List.getElem?_cons_succ, ih (j0 + 1) k]
      have hidx : j0 + 1 + k = j0 + (k + 1) := by omega
      rw [hidx]

/-- C6: at every semantic step the masked logits agree with the raw
logits except that every index above TTS_EOS_TOKEN and every in-bounds
tag index holds negative infinity; in particular, under the spec
constraint that the three tags lie above TTS_EOS_TOKEN, the entry at
index TTS_EOS_TOKEN itself is unchanged. -/
theorem c6_theorem {α : Type} (neg_inf : α) (tag0 tag1 tag2 : ℕ)
    (logits : List α) (h0 : TTS_EOS_TOKEN < tag0) (h1 : TTS_EOS_TOKEN < tag1)
    (h2 : TTS_EOS_TOKEN < tag2) :
    (∀ j, (logits_masked neg_inf tag0 tag1 tag2 logits)[j]? =
        (logits[j]?).map fun v =>
          if TTS_EOS_TOKEN < j ∨ j = tag0 ∨ j = tag1 ∨ j = tag2 then neg_inf
          else v) ∧
      (logits_masked neg_inf tag0 tag1 tag2 logits)[TTS_EOS_TOKEN]? =
        logits[TTS_EOS_TOKEN]? := by
  have main : ∀ j, (logits_masked neg_inf tag0 tag1 tag2 logits)[j]? =
      (logits[j]?).map fun v =>
        if TTS_EOS_TOKEN < j ∨ j = tag0 ∨ j = tag1 ∨ j = tag2 then neg_inf
        else v := by
    intro j
    unfold logits_masked
    rw [List.getElem?_set', List.getElem?_set', List.getElem?_set',
      mask_above_eos_getElem]
    cases hx : logits[j]? with
    | none => simp
    | some v =>
      by_cases e2 : tag2 = j <;> by_cases e1 : tag1 = j <;>
        by_cases e0 : tag0 = j <;>
        simp [e0, e1, e2, Nat.zero_add, Function.const] <;>
        split_ifs <;> first | rfl | omega
  refine ⟨main, ?_⟩
  rw [main TTS_EOS_TOKEN]
  have c0 : ¬ (TTS_EOS_TOKEN < TTS_EOS_TOKEN ∨ TTS_EOS_TOKEN = tag0 ∨
      TTS_EOS_TOKEN = tag1 ∨ TTS_EOS_TOKEN = tag2) := by omega
  cases hx : logits[TTS_EOS_TOKEN]? with
  | none => simp
  | some v =>
    simp only [Option.map_some']
    rw [if_neg c0]

/-- C6 (witness): the mask theorem evaluated on a concrete three-entry
logits vector with the tag values 8193, 8194, 8195: the entry at index
1 is unchanged. -/
theorem c6_witness :
    (logits_masked (-1 : ℤ) 8193 8194 8195 [5, 6, 7])[1]? = some 6 := by
  have h := (c6_theorem (-1 : ℤ) 8193 8194 8195 [5, 6, 7]
    (by decide) (by decide) (by decide)).1 1
  rw [h]
  decide

/-- C7 (counterexample): with requested top_k 13 and conservative
factor 0, the source truncates 13 * 0.9 = 11.7 to 11, while the claim
rounds it to 12. -/
theorem c7_counterexample :
    args_global_top_k 13 0 = 11 ∧ args_global_top_k_claim 13 0 = 12 := by
  constructor
  · unfold args_global_top_k effective_top_k
    norm_num
    decide
  · unfold args_global_top_k_claim effective_top_k
    norm_num [round_eq]
    decide

/-- C7 (amended): the effective global-phase top_k starts from the
request top_k with 0 replaced by 20, and equals
max(5, the scaled value truncated toward zero), not rounded; the max
with 5.0 is applied to the float before the cast, which coincides with
applying it after. -/
theorem c7_theorem (top_k : ℕ) (vf gr : ℚ) :
    args_global_top_k top_k (global_conservative_factor vf gr) =
      max 5 (⌊(effective_top_k top_k : ℚ) *
        (9/10 + 1/10 * global_conservative_factor vf gr)⌋).toNat ∧
      args_global_top_k 0 (global_conservative_factor vf gr) =
        args_global_top_k 20 (global_conservative_factor vf gr) := by
  constructor
  · unfold args_global_top_k
    rcases le_total (5 : ℚ)
        ((effective_top_k top_k : ℚ) *
          (9/10 + 1/10 * global_conservative_factor vf gr)) with h | h
    · rw [max_eq_right h]
      have h5 : (5 : ℤ) ≤ ⌊(effective_top_k top_k : ℚ) *
          (9/10 + 1/10 * global_conservative_factor vf gr)⌋ :=
        Int.le_floor.mpr (by exact_mod_cast h)
      omega
    · rw [max_eq_left h]
      have h55 : ⌊(5 : ℚ)⌋ = 5 := by norm_num
      have h5 : ⌊(effective_top_k top_k : ℚ) *
          (9/10 + 1/10 * global_conservative_factor vf gr)⌋ ≤ (5 : ℤ) := by
        have hf := Int.floor_mono h
        omega
      rw [h55]
      omega
  · norm_num [args_global_top_k, effective_top_k]

/-- C8: for every non-empty input, get_ref_clip succeeds and returns
exactly 96000 samples: the first 96000 samples of the input when it is
long enough, otherwise the first 96000 samples of the input repeated
96000 / len + 1 times. -/
theorem c8_theorem {α : Type} (wav : List α) (h : wav ≠ []) :
    (get_ref_clip wav).map List.length = some 96000 ∧
      (96000 ≤ wav.length → get_ref_clip wav = some (wav.take 96000)) ∧
      (wav.length < 96000 →
        get_ref_clip wav = some
          (((List.replicate (96000 / wav.length + 1) wav).flatten).take 96000)) := by
  have hR : ref_segment_length = 96000 := by norm_num [ref_segment_length]
  have hm : 0 < wav.length := List.length_pos.mpr h
  rw [show (96000 : ℕ) = ref_segment_length from hR.symm]
  by_cases hlt : wav.length < ref_segment_length
  · have hne : ¬ wav.length = 0 := by omega
    have hout : get_ref_clip wav = some
        (((List.replicate (ref_segment_length / wav.length + 1) wav).flatten).take
          ref_segment_length) := by
      unfold get_ref_clip
      rw [if_pos hlt, if_neg hne]
    have hlen : ((List.replicate (ref_segment_length / wav.length + 1)
        wav).flatten).length = (ref_segment_length / wav.length + 1) * wav.length := by
      rw [List.length_flatten, List.map_replicate, List.sum_replicate, smul_eq_mul]
    have hkey : ref_segment_length ≤
        (ref_segment_length / wav.length + 1) * wav.length := by
      have hdm := Nat.div_add_mod ref_segment_length wav.length
      have hmod := Nat.mod_lt ref_segment_length hm
      calc ref_segment_length
          = wav.length * (ref_segment_length / wav.length) +
              ref_segment_length % wav.length := hdm.symm
        _ ≤ wav.length * (ref_segment_length / wav.length) + wav.length := by omega
        _ = (ref_segment_length / wav.length + 1) * wav.length := by ring
    refine ⟨?_, ?_, ?_⟩
    · rw [hout]
      simp only [Option.map_some', Option.some.injEq]
      rw [List.length_take, hlen]
      exact Nat.min_eq_left hkey
    · intro hge
      exact absurd hge (by omega)
    · intro _
      exact hout
  · have hout : get_ref_clip wav = some (wav.take ref_segment_length) := by
      unfold get_ref_clip
      rw [if_neg hlt]
    refine ⟨?_, ?_, ?_⟩
    · rw [hout]
      simp only [Option.map_some', Option.some.injEq]
      rw [List.length_take]
      exact Nat.min_eq_left (by omega)
    · intro _
      exact hout
    · intro hc
      exact absurd hc (by omega)

/-- C8 (witness): on the one-sample input the clip succeeds with
exactly 96000 samples. -/
theorem c8_witness :
    (get_ref_clip ([0] : List ℤ)).map List.length = some 96000 :=
  (c8_theorem ([0] : List ℤ) (by decide)).1

/-- C9: on the empty input the shortfall branch of get_ref_clip divides
ref_segment_length by the input length 0; the resulting panic is
embedded as none, so the function returns no 96000-sample buffer. -/
theorem c9_theorem : get_ref_clip ([] : List ℤ) = none := by
  norm_num [get_ref_clip, ref_segment_length]

/-- C10: when the decoder returns empty global and semantic token
vectors, generate_speech skips the vocoder entirely (the result does
not depend on decode_audio) and succeeds with exactly 16000 zero
samples, one second of silence. -/
theorem c10_theorem (decode_audio : List ℤ → List ℤ → Option (List ℚ)) :
    generate_speech_decode decode_audio [] [] =
      some (List.replicate 16000 (0 : ℚ)) := rfl
